import Mathlib

/-!
Verification development for the ANP production-data application (`app.py`).

The file shallowly embeds the pipeline of the application:

* the source classifier `get_available_files` (links on the listing page →
  `(year, filename, url)` entries for one environment),
* the per-file loader of `load_data_for_fields` (encoding fallback, comma
  delimiter, `Campo` filtering, network-event trace),
* the field-index builder `update_metadata_cache` / `save_metadata`
  (persisted set of distinct `Campo` values per environment),
* the transformation engine `process_dataframe` (locale-coerced measurement
  columns, chronological per-well sort, cumulative oil, elapsed days,
  gas-oil and water-oil ratios, logarithm of the oil rate).

Floating-point cell values are modelled as rationals after the numeric
locale coercion of `process_dataframe` (step at lines 289–295 of the source:
non-numeric text is coerced and unparseable entries become `0.0`); a pandas
`NaN`/`NaT` entry produced by a failed date or logarithm computation is
modelled as `Option.none`.  The abstract parameters `toDays` (calendar day
number of the first day of a month) and `logFn` (natural logarithm) stand
for the corresponding opaque numeric routines of pandas/numpy; every
theorem below holds for every choice of these parameters, and witnesses
instantiate them concretely.
-/

namespace AnpData

/-! ### Generic string helpers (Python `in`, `.strip()`, `.lower()`,
`str.split('/')[-1]`, string comparison)

All of them are written structurally over `List Char` so that every theorem
below can be checked by kernel evaluation on concrete inputs. -/

/-- Whether the second character list is an initial segment of the first. -/
def startsWithChars : List Char → List Char → Bool
  | _, [] => true
  | [], _ :: _ => false
  | a :: as, b :: bs => a == b && startsWithChars as bs

/-- Whether the second character list occurs contiguously inside the first:
the model of Python's `needle in hay` on strings. -/
def containsChars : List Char → List Char → Bool
  | [], needle => needle.isEmpty
  | a :: t, needle => startsWithChars (a :: t) needle || containsChars t needle

/-- Python's substring test `needle in hay`. -/
def strContains (hay needle : String) : Bool :=
  containsChars hay.data needle.data

/-- Model of Python's `str.strip()`: drop whitespace from both ends. -/
def trimChars (l : List Char) : List Char :=
  ((l.dropWhile Char.isWhitespace).reverse.dropWhile Char.isWhitespace).reverse

/-- Lower-casing of one character on the ASCII range (the only range the
keyword tests of the classifier need; `marítima` is already lower case). -/
def lowerChar (c : Char) : Char :=
  if 'A' ≤ c ∧ c ≤ 'Z' then Char.ofNat (c.toNat + 32) else c

/-- Model of Python's `str.lower()` on the ASCII range. -/
def strLower (s : String) : String :=
  String.mk (s.data.map lowerChar)

/-- Characters after the last `'/'`: the model of `href.split('/')[-1]`. -/
def lastPathChars (l : List Char) : List Char :=
  l.foldl (fun acc c => if c = '/' then [] else acc ++ [c]) []

/-- Model of `href.split('/')[-1]` on strings. -/
def lastPathPart (s : String) : String :=
  String.mk (lastPathChars s.data)

/-- Lexicographic code-point comparison of character lists: the order Python
uses to compare strings. -/
def charListLe : List Char → List Char → Bool
  | [], _ => true
  | _ :: _, [] => false
  | a :: as, b :: bs =>
    decide (a.toNat < b.toNat) || (a.toNat == b.toNat && charListLe as bs)

/-- Python's `≤` on strings (lexicographic by code point). -/
def strLe (a b : String) : Bool := charListLe a.data b.data

theorem charListLe_cons {a b : Char} {as bs : List Char} :
    charListLe (a :: as) (b :: bs) = true ↔
      a.toNat < b.toNat ∨ (a.toNat = b.toNat ∧ charListLe as bs = true) := by
  simp [charListLe]

theorem charListLe_total : ∀ as bs, charListLe as bs = true ∨ charListLe bs as = true
  | [], _ => Or.inl rfl
  | _ :: _, [] => Or.inr rfl
  | a :: as, b :: bs => by
    rcases Nat.lt_trichotomy a.toNat b.toNat with h | h | h
    · exact Or.inl (charListLe_cons.mpr (Or.inl h))
    · rcases charListLe_total as bs with ih | ih
      · exact Or.inl (charListLe_cons.mpr (Or.inr ⟨h, ih⟩))
      · exact Or.inr (charListLe_cons.mpr (Or.inr ⟨h.symm, ih⟩))
    · exact Or.inr (charListLe_cons.mpr (Or.inl h))

theorem charListLe_trans : ∀ as bs cs, charListLe as bs = true →
    charListLe bs cs = true → charListLe as cs = true
  | [], _, _, _, _ => rfl
  | _ :: _, [], _, h, _ => by simp [charListLe] at h
  | _ :: _, _ :: _, [], _, h => by simp [charListLe] at h
  | a :: as, b :: bs, c :: cs, h1, h2 => by
    rcases charListLe_cons.mp h1 with h1 | ⟨hab, h1⟩ <;>
      rcases charListLe_cons.mp h2 with h2 | ⟨hbc, h2⟩
    · exact charListLe_cons.mpr (Or.inl (by omega))
    · exact charListLe_cons.mpr (Or.inl (by omega))
    · exact charListLe_cons.mpr (Or.inl (by omega))
    · exact charListLe_cons.mpr (Or.inr ⟨by omega, charListLe_trans as bs cs h1 h2⟩)

theorem uint32_toNat_inj {a b : UInt32} (h : a.toNat = b.toNat) : a = b := by
  cases a; cases b
  simp only [UInt32.toNat] at h
  congr 1
  exact BitVec.eq_of_toNat_eq h

theorem char_toNat_inj {a b : Char} (h : a.toNat = b.toNat) : a = b := by
  apply Char.ext
  apply uint32_toNat_inj
  simpa [Char.toNat] using h

theorem charListLe_antisymm : ∀ as bs, charListLe as bs = true →
    charListLe bs as = true → as = bs
  | [], [], _, _ => rfl
  | [], _ :: _, _, h => by simp [charListLe] at h
  | _ :: _, [], h, _ => by simp [charListLe] at h
  | a :: as, b :: bs, h1, h2 => by
    rcases charListLe_cons.mp h1 with h1 | ⟨hab, h1⟩ <;>
      rcases charListLe_cons.mp h2 with h2 | ⟨hba, h2⟩
    · exact absurd h2 (by omega)
    · exact absurd h1 (by omega)
    · exact absurd h2 (by omega)
    · rw [char_toNat_inj hab, charListLe_antisymm as bs h1 h2]

theorem strLe_total (a b : String) : strLe a b = true ∨ strLe b a = true :=
  charListLe_total a.data b.data

theorem strLe_trans {a b c : String} (h1 : strLe a b = true) (h2 : strLe b c = true) :
    strLe a c = true :=
  charListLe_trans a.data b.data c.data h1 h2

theorem strLe_antisymm {a b : String} (h1 : strLe a b = true) (h2 : strLe b a = true) :
    a = b := by
  cases a; cases b
  exact congrArg String.mk (charListLe_antisymm _ _ h1 h2)

/-! ### Year extraction: `re.search(r'(19|20)\d{2}', text)` -/

/-- Whether a year match of the pattern `(19|20)\d{2}` starts at the head of
the character list; if so returns the four matched characters (`\d` modelled
on the ASCII digits, the ones year tokens use). -/
def yearHere : List Char → Option String
  | a :: b :: c :: d :: _ =>
    if ((a == '1' && b == '9') || (a == '2' && b == '0')) && c.isDigit && d.isDigit then
      some (String.mk [a, b, c, d])
    else none
  | _ => none

/-- Leftmost match of `(19|20)\d{2}`, scanning character positions left to
right exactly as `re.search` does. -/
def findYearChars : List Char → Option String
  | [] => none
  | a :: rest =>
    match yearHere (a :: rest) with
    | some y => some y
    | none => findYearChars rest

/-- Model of `re.search(r'(19|20)\d{2}', text)`, returning the matched text. -/
def findYear (s : String) : Option String :=
  findYearChars s.data

/-! ### Source classifier: `get_available_files` (app.py lines 43–96) -/

/-- One anchor of the listing page: its visible text and its `href`. -/
structure Link where
  text : String
  href : String
deriving DecidableEq, Repr

/-- One classified source file: the `(year, filename, url)` tuple appended to
`files_found` in `get_available_files`. -/
structure FileEntry where
  year : String
  filename : String
  url : String
deriving DecidableEq, Repr

/-- Offshore keyword family of `get_available_files`. -/
def marKeywords : List String := ["mar", "offshore", "producao_mar", "marítima"]

/-- Onshore keyword family of `get_available_files`. -/
def terraKeywords : List String := ["terra", "terrestre", "onshore", "producao_terra"]

/-- Classification of one anchor, following `get_available_files` lines 55–88:
the visible text is stripped, a year token is searched in the text, the href
must contain `.csv` (lower-cased), the environment is decided from the two
keyword families with the href-major tie break, and only entries whose
environment equals `target_env` are kept. -/
def classifyLink (targetEnv : String) (lk : Link) : Option FileEntry :=
  let text := String.mk (trimChars lk.text.data)
  let href := lk.href
  let hrefLower := strLower href
  let textLower := strLower text
  match findYear text with
  | none => none
  | some year =>
    if strContains hrefLower ".csv" then
      let isMar := marKeywords.any (fun k => strContains hrefLower k)
        || marKeywords.any (fun k => strContains textLower k)
      let isTerra := terraKeywords.any (fun k => strContains hrefLower k)
        || terraKeywords.any (fun k => strContains textLower k)
      let env : Option String :=
        if isMar && !isTerra then some "Mar"
        else if isTerra && !isMar then some "Terra"
        else if isMar && isTerra then
          (if strContains hrefLower "mar" then some "Mar" else some "Terra")
        else none
      match env with
      | some e => if e = targetEnv then some ⟨year, lastPathPart href, href⟩ else none
      | none => none
    else none

/-- The descending-by-year order used by `files_found.sort(key=…, reverse=True)`:
an entry precedes another when its year string is the larger one. -/
def fileDescLe (a b : FileEntry) : Prop := strLe b.year a.year = true

instance : DecidableRel fileDescLe :=
  fun a b => inferInstanceAs (Decidable (strLe b.year a.year = true))

instance : IsTotal FileEntry fileDescLe :=
  ⟨fun a b => (strLe_total b.year a.year).imp id id⟩

instance : IsTrans FileEntry fileDescLe :=
  ⟨fun _ _ _ hab hbc => strLe_trans hbc hab⟩

/-- Model of `get_available_files(target_env)` applied to the anchors of the
listing page: every anchor is classified independently and the matches are
sorted by year descending (a stable sort, like CPython's).  No
de-duplication of any kind is performed by the source. -/
def getAvailableFiles (targetEnv : String) (page : List Link) : List FileEntry :=
  List.insertionSort fileDescLe (page.filterMap (classifyLink targetEnv))

/-! ### Per-file reading in `load_data_for_fields` (app.py lines 234–249)

A fetched file is modelled by which encodings decode it without a
`UnicodeDecodeError` and by the table `pd.read_csv` produces for an encoding
that does decode (with `sep=','`, the only separator this code path ever
passes); `parsed = none` models a non-decoding read error (for example an
empty file), which the outer `except` of the loop swallows.  Column names
are taken after the bracket/whitespace normalization of line 240, so
`hasCampo` states that a `Campo` column is present after that cleanup. -/

/-- Candidate text encodings appearing in the source. -/
inductive Enc
  | w1252
  | utf8
  | latin1
deriving DecidableEq, Repr

/-- One row of a loaded raw table, keeping the one column the loader's
filter consults. -/
structure LoadRow where
  campo : String
deriving DecidableEq, Repr

/-- A raw table as produced by `pd.read_csv` plus the header cleanup of
line 240. -/
structure LoadTable where
  hasCampo : Bool
  rows : List LoadRow
deriving DecidableEq, Repr

/-- A remote/downloaded CSV file, abstracted by its decoding and parsing
behaviour. -/
structure SourceFile where
  decodes : Enc → Bool
  parsed : Enc → Option LoadTable

/-- The read attempt of `load_data_for_fields` lines 234–240: `read_csv`
with `sep=','` and `encoding='windows-1252'`; on `UnicodeDecodeError` one
retry with `sep=','` and `encoding='utf-8'`; any other failure (including a
`UnicodeDecodeError` of the retry) is swallowed by the outer `except` and
the file is skipped (`none`).  No other encoding and no other separator is
ever attempted on this code path. -/
def loadFileRead (f : SourceFile) : Option LoadTable :=
  if f.decodes .w1252 then f.parsed .w1252
  else if f.decodes .utf8 then f.parsed .utf8
  else none

/-- The field filter of `load_data_for_fields` lines 243–244: applied only
when the selection is non-empty (Python truthiness of `selected_campos`)
and the cleaned table has a `Campo` column; otherwise the table passes
through unchanged. -/
def filterByCampos (selected : List String) (tb : LoadTable) : LoadTable :=
  if !selected.isEmpty && tb.hasCampo then
    { tb with rows := tb.rows.filter (fun r => selected.contains r.campo) }
  else tb

/-- Reading plus filtering of one file inside the loop of
`load_data_for_fields`. -/
def loadAndFilter (selected : List String) (f : SourceFile) : Option LoadTable :=
  (loadFileRead f).map (filterByCampos selected)

/-! ### Network behaviour of `load_data_for_fields` (app.py lines 202–257)

The function always starts with `get_available_files`, which performs the
HTTP GET of the listing page (app.py line 51), and then downloads exactly
the files whose local copy `{year}_{env}_{filename}` is absent from the
download directory.  The source has no persisted consolidated dataset and
no `force_refresh` parameter: the only persistence is the per-file download
cache.  `loadDataEvents` is the ordered trace of network operations of one
invocation on the success path (every download succeeding). -/

/-- Local cache file name, `f"{year}_{target_env}_{filename}"` (line 220). -/
def localName (env year filename : String) : String :=
  year ++ "_" ++ env ++ "_" ++ filename

/-- One network operation of the loader. -/
inductive NetEvent
  | listing
  | download (url : String)
deriving DecidableEq, Repr

/-- The download directory, as the set of local file names present. -/
structure LocalStore where
  files : List String
deriving DecidableEq, Repr

/-- Trace of the network operations performed by
`load_data_for_fields(target_env, …)`: one listing fetch, then one download
per classified file whose local copy is missing. -/
def loadDataEvents (targetEnv : String) (page : List Link) (store : LocalStore) :
    List NetEvent :=
  NetEvent.listing ::
    (getAvailableFiles targetEnv page).filterMap (fun e =>
      if store.files.contains (localName targetEnv e.year e.filename) then none
      else some (NetEvent.download e.url))

/-! ### Field-index cache: `save_metadata` / `update_metadata_cache`
(app.py lines 30–34 and 112–200)

`update_metadata_cache` re-derives the set of distinct `Campo` values from
scratch on every run: `unique_campos` starts empty, the files processed are
all classified files on a full scan and only the first three (the list is
sorted by year descending) on a quick scan, and each processed file
contributes the set of `Campo` values extracted from it.  `save_metadata`
then opens the per-environment JSON file in mode `'w'` and serializes only
that set: the previously persisted set is never read back and never merged.
The per-file extraction (download, encoding loop, header scan) is
abstracted here by `camposPerFile`, the list of per-file extracted sets in
the classifier's descending-year order; a file whose download or every read
attempt fails simply contributes the empty set, like the `continue` of the
source loop. -/

/-- Model of `save_metadata(env, campos)`: the JSON file is rewritten with
exactly `campos`; the state persisted before is discarded. -/
def saveMetadata (prevPersisted campos : Finset String) : Finset String :=
  campos

/-- The persisted field index after one run of
`update_metadata_cache(target_env, full_scan)`. -/
def updateMetadataCache (prevPersisted : Finset String) (fullScan : Bool)
    (camposPerFile : List (Finset String)) : Finset String :=
  saveMetadata prevPersisted
    ((if fullScan then camposPerFile else camposPerFile.take 3).foldr (fun s acc => s ∪ acc) ∅)

/-! ### Transformation engine: `process_dataframe` (app.py lines 259–326)

The input table is modelled as it stands after step 1 of the engine (the
`Mês/Ano` split of lines 265–271) and after the numeric locale coercion of
lines 274–295: each measurement cell is a rational (`pd.to_numeric(…,
errors='coerce').fillna(0.0)` maps unparseable text to `0`), and the
`Ano`/`Mês` cells are recorded as `some n` when the cell contributes a
parseable component to `pd.to_datetime(f"{Ano}-{Mês}-01", errors='coerce')`
and `none` when it makes that parse fail (missing value, text, out-of-range
number).  The `hasX` flags state which columns are present; an access
`df[missing]` raises a `KeyError` (modelled as `Except.error`), while
`df.get(missing, 0)` yields the scalar `0`.  The dropped administrative
columns of lines 297–303 carry no modelled field.  `toDays` abstracts the
day number pandas assigns to the first of a month, and `logFn` abstracts
`np.log`; a `NaN`/`NaT` cell of the output is modelled as `none`. -/

/-- One input row of `process_dataframe`, restricted to the columns the
engine reads: `Poço`, `Ano`, `Mês` and the measurement columns used by the
derived metrics. -/
structure RawRow where
  poco : String
  ano : Option Int
  mes : Option Int
  oleo : ℚ
  gasAssoc : ℚ
  gasNonAssoc : ℚ
  agua : ℚ
deriving DecidableEq, Repr

/-- The input table of `process_dataframe` together with which of the read
columns are present.  When a `hasX` flag is `false` the corresponding field
of the rows is never consulted by the model, matching a column that does
not exist in the frame. -/
structure InputTable where
  hasPoco : Bool
  hasAno : Bool
  hasMes : Bool
  hasOleo : Bool
  hasGasAssoc : Bool
  hasGasNonAssoc : Bool
  hasAgua : Bool
  rows : List RawRow
deriving DecidableEq, Repr

/-- The date `pd.to_datetime(f"{Ano}-{Mês}-01", errors='coerce')` builds
from the two cells: it parses exactly when both components are numeric and
the month is in range, and is `NaT` (`none`) otherwise. -/
def dateOfParts : Option Int → Option Int → Option (Int × Int)
  | some a, some m => if 1 ≤ m ∧ m ≤ 12 then some (a, m) else none
  | _, _ => none

/-- The `Data_Temp` value of one row. -/
def RawRow.dateOf (r : RawRow) : Option (Int × Int) :=
  dateOfParts r.ano r.mes

/-- `df.get("Produção de Gás Associado (Mm³)", 0)` (line 317). -/
def gasAssocVal (t : InputTable) (r : RawRow) : ℚ :=
  if t.hasGasAssoc then r.gasAssoc else 0

/-- `df.get("Produção de Gás Não Associado (Mm³)", 0)` (line 317). -/
def gasNonAssocVal (t : InputTable) (r : RawRow) : ℚ :=
  if t.hasGasNonAssoc then r.gasNonAssoc else 0

/-- `df.get('Produção de Água (m³)', 0)` (line 319). -/
def aguaVal (t : InputTable) (r : RawRow) : ℚ :=
  if t.hasAgua then r.agua else 0

/-- Comparison of two `Data_Temp` keys under `sort_values`'s default
`na_position='last'`: `NaT` sorts after every date. -/
def optLe : Option Int → Option Int → Bool
  | _, none => true
  | none, some _ => false
  | some x, some y => decide (x ≤ y)

/-- The sort key day number of a row, `none` for `NaT`. -/
def dkey (toDays : Int × Int → Int) (r : RawRow) : Option Int :=
  (r.dateOf).map toDays

/-- The row order of `df.sort_values(by=['Poço', 'Data_Temp'])`: primary key
the well name (Python string order), secondary key the date with `NaT`
last. -/
def rowLe (toDays : Int × Int → Int) (a b : RawRow) : Prop :=
  (a.poco = b.poco ∧ optLe (dkey toDays a) (dkey toDays b) = true) ∨
    (a.poco ≠ b.poco ∧ strLe a.poco b.poco = true)

instance (toDays : Int × Int → Int) : DecidableRel (rowLe toDays) :=
  fun _ _ => inferInstanceAs (Decidable (_ ∨ _))

theorem optLe_total (x y : Option Int) : optLe x y = true ∨ optLe y x = true := by
  cases x <;> cases y <;> simp [optLe] <;> omega

theorem optLe_trans {x y z : Option Int} (h1 : optLe x y = true)
    (h2 : optLe y z = true) : optLe x z = true := by
  cases x <;> cases y <;> cases z <;> simp [optLe] at h1 h2 ⊢ <;> omega

instance (toDays : Int × Int → Int) : IsTotal RawRow (rowLe toDays) := by
  constructor
  intro a b
  by_cases hp : a.poco = b.poco
  · rcases optLe_total (dkey toDays a) (dkey toDays b) with h | h
    · exact Or.inl (Or.inl ⟨hp, h⟩)
    · exact Or.inr (Or.inl ⟨hp.symm, h⟩)
  · rcases strLe_total a.poco b.poco with h | h
    · exact Or.inl (Or.inr ⟨hp, h⟩)
    · exact Or.inr (Or.inr ⟨fun he => hp he.symm, h⟩)

instance (toDays : Int × Int → Int) : IsTrans RawRow (rowLe toDays) := by
  constructor
  intro a b c hab hbc
  rcases hab with ⟨he1, h1⟩ | ⟨hn1, h1⟩ <;> rcases hbc with ⟨he2, h2⟩ | ⟨hn2, h2⟩
  · exact Or.inl ⟨he1.trans he2, optLe_trans h1 h2⟩
  · exact Or.inr ⟨he1 ▸ hn2, he1 ▸ h2⟩
  · exact Or.inr ⟨he2 ▸ hn1, he2 ▸ h1⟩
  · by_cases hac : a.poco = c.poco
    · rw [hac] at h1
      exact absurd (strLe_antisymm h2 h1) hn2
    · exact Or.inr ⟨hac, strLe_trans h1 h2⟩

/-- The chronological per-well sort of line 308 (`np.lexsort` under a
multi-column `sort_values` is stable, like insertion sort). -/
def sortRows (toDays : Int × Int → Int) (l : List RawRow) : List RawRow :=
  List.insertionSort (rowLe toDays) l

/-- Sum of the oil production of the rows of `l` belonging to well `w`. -/
def sumOilFor (w : String) (l : List RawRow) : ℚ :=
  ((l.filter (fun r => r.poco == w)).map (fun r => r.oleo)).sum

/-- The running per-well cumulative sum
`df.groupby('Poço')['Produção de Óleo (m³)'].cumsum()` (line 310), walking
the sorted list: each row is paired with the sum of the oil of all rows up
to and including it that share its well.  `pre` are the rows already
walked. -/
def cumOil : List RawRow → List RawRow → List (RawRow × ℚ)
  | _, [] => []
  | pre, r :: rest => (r, sumOilFor r.poco (pre ++ [r])) :: cumOil (pre ++ [r]) rest

/-- Day numbers of the parseable dates of well `w` inside `l`: the values
`x.min()` ranges over in the `transform` of line 309 (pandas `min` skips
`NaT`). -/
def validDays (toDays : Int × Int → Int) (l : List RawRow) (w : String) : List Int :=
  (l.filter (fun r => r.poco == w)).filterMap (fun r => (r.dateOf).map toDays)

/-- The `tempo` value of one row (line 309):
`(Data_Temp - group_min_valid_date).days`, which is `NaN` (`none`) when the
row's own date is `NaT`. -/
def tempoOf (toDays : Int × Int → Int) (l : List RawRow) (r : RawRow) : Option Int :=
  (r.dateOf).bind (fun d =>
    ((validDays toDays l r.poco).min?).map (fun m => toDays d - m))

/-- The gas-oil ratio of line 317–318:
`np.where(oleo > 0, (gasAssoc + gasNonAssoc) * 1000 / oleo, 0)`. -/
def rgoOf (gA gNA oleo : ℚ) : ℚ :=
  if 0 < oleo then (gA + gNA) * 1000 / oleo else 0

/-- The water-oil ratio of line 319: `np.where(oleo > 0, agua / oleo, 0)`. -/
def raoOf (agua oleo : ℚ) : ℚ :=
  if 0 < oleo then agua / oleo else 0

/-- The `lnq` column of lines 322–324: initialized to `NaN` (`none`) and
overwritten with `np.log(oleo)` exactly where `oleo > 0`. -/
def lnqOf (logFn : ℚ → ℚ) (oleo : ℚ) : Option ℚ :=
  if 0 < oleo then some (logFn oleo) else none

/-- One output record of `process_dataframe`, restricted to the columns the
claims speak about (the original identifying and measurement columns are
kept by the engine; the gas and water fields hold the effective values the
ratio computation used, i.e. `0` when the column is absent). -/
structure ProcRow where
  poco : String
  ano : Option Int
  mes : Option Int
  oleo : ℚ
  gasAssoc : ℚ
  gasNonAssoc : ℚ
  agua : ℚ
  tempo : Option Int
  np : ℚ
  rgo : ℚ
  rao : ℚ
  lnq : Option ℚ
deriving DecidableEq, Repr

/-- Assembly of one output row from a sorted input row and its cumulative
oil value. -/
def mkProcRow (t : InputTable) (toDays : Int × Int → Int) (logFn : ℚ → ℚ)
    (sorted : List RawRow) (p : RawRow × ℚ) : ProcRow :=
  { poco := p.1.poco
    ano := p.1.ano
    mes := p.1.mes
    oleo := p.1.oleo
    gasAssoc := gasAssocVal t p.1
    gasNonAssoc := gasNonAssocVal t p.1
    agua := aguaVal t p.1
    tempo := tempoOf toDays sorted p.1
    np := p.2
    rgo := rgoOf (gasAssocVal t p.1) (gasNonAssocVal t p.1) p.1.oleo
    rao := raoOf (aguaVal t p.1) p.1.oleo
    lnq := lnqOf logFn p.1.oleo }

/-- Assembly of one output row on the short-circuit branch of lines
312–314 (`Ano` or `Mês` absent): `tempo = 0` and `Np = 0` for every row. -/
def mkProcRowNoDate (t : InputTable) (logFn : ℚ → ℚ) (r : RawRow) : ProcRow :=
  { poco := r.poco
    ano := r.ano
    mes := r.mes
    oleo := r.oleo
    gasAssoc := gasAssocVal t r
    gasNonAssoc := gasNonAssocVal t r
    agua := aguaVal t r
    tempo := some 0
    np := 0
    rgo := rgoOf (gasAssocVal t r) (gasNonAssocVal t r) r.oleo
    rao := raoOf (aguaVal t r) r.oleo
    lnq := lnqOf logFn r.oleo }

/-- Model of `process_dataframe(df)` (lines 259–326).  When `Ano` and `Mês`
are both present, line 308 sorts by `['Poço', 'Data_Temp']` — a `KeyError`
if `Poço` is absent — and line 310 cumulates `Produção de Óleo (m³)` per
well — a `KeyError` if that column is absent.  On the short-circuit branch
`tempo` and `Np` are the scalar `0`.  Lines 318 and 323–324 read
`df['Produção de Óleo (m³)']` directly on both branches, so a missing oil
column is a `KeyError` in every case; the gas and water columns are read
with `df.get(…, 0)` and degrade to zero. -/
def processDataframe (toDays : Int × Int → Int) (logFn : ℚ → ℚ)
    (t : InputTable) : Except String (List ProcRow) :=
  if t.hasAno && t.hasMes then
    if !t.hasPoco then .error "KeyError: Poço"
    else if !t.hasOleo then .error "KeyError: Produção de Óleo (m³)"
    else
      .ok ((cumOil [] (sortRows toDays t.rows)).map
        (mkProcRow t toDays logFn (sortRows toDays t.rows)))
  else
    if !t.hasOleo then .error "KeyError: Produção de Óleo (m³)"
    else .ok (t.rows.map (mkProcRowNoDate t logFn))

/-- The order of output rows corresponding to `rowLe` on input rows: primary
key the well, secondary key the date with `NaT` last. -/
def procLe (toDays : Int × Int → Int) (a b : ProcRow) : Prop :=
  (a.poco = b.poco ∧
      optLe ((dateOfParts a.ano a.mes).map toDays) ((dateOfParts b.ano b.mes).map toDays) = true) ∨
    (a.poco ≠ b.poco ∧ strLe a.poco b.poco = true)

instance {ε α : Type} [DecidableEq ε] [DecidableEq α] : DecidableEq (Except ε α) :=
  fun a b =>
    match a, b with
    | .ok x, .ok y =>
      if h : x = y then isTrue (by rw [h]) else isFalse (fun he => by cases he; exact h rfl)
    | .error x, .error y =>
      if h : x = y then isTrue (by rw [h]) else isFalse (fun he => by cases he; exact h rfl)
    | .ok _, .error _ => isFalse (fun he => by cases he)
    | .error _, .ok _ => isFalse (fun he => by cases he)

/-! ### Helper lemmas -/

theorem sumOilFor_append (w : String) (l1 l2 : List RawRow) :
    sumOilFor w (l1 ++ l2) = sumOilFor w l1 + sumOilFor w l2 := by
  simp [sumOilFor, List.filter_append]

theorem sumOilFor_nonneg {w : String} {l : List RawRow}
    (h : ∀ r ∈ l, 0 ≤ r.oleo) : 0 ≤ sumOilFor w l := by
  apply List.sum_nonneg
  intro x hx
  rcases List.mem_map.mp hx with ⟨r, hr, hrx⟩
  exact hrx ▸ h r (List.mem_filter.mp hr).1

theorem sumOilFor_eq_zero {w : String} {l : List RawRow}
    (h : ∀ r ∈ l, r.poco ≠ w) : sumOilFor w l = 0 := by
  have : l.filter (fun r => r.poco == w) = [] := by
    rw [List.filter_eq_nil_iff]
    intro r hr
    simp [h r hr]
  simp [sumOilFor, this]

theorem cumOil_length : ∀ (pre l : List RawRow), (cumOil pre l).length = l.length
  | _, [] => rfl
  | pre, r :: rest => by simp [cumOil, cumOil_length (pre ++ [r]) rest]

theorem cumOil_get? : ∀ (pre l : List RawRow) (i : ℕ) (h : i < l.length),
    (cumOil pre l).get? i =
      some (l.get ⟨i, h⟩, sumOilFor (l.get ⟨i, h⟩).poco (pre ++ l.take (i + 1)))
  | _, [], i, h => absurd h (by simp)
  | pre, r :: rest, 0, _ => by simp [cumOil]
  | pre, r :: rest, i + 1, h => by
    have ih := cumOil_get? (pre ++ [r]) rest i (by simpa using h)
    simp only [cumOil, List.get?_cons_succ, ih, List.get_cons_succ]
    simp [List.take_cons, List.append_assoc]

theorem cumOil_map_fst : ∀ (pre l : List RawRow), (cumOil pre l).map (fun p => p.1) = l
  | _, [] => rfl
  | pre, r :: rest => by simp [cumOil, cumOil_map_fst (pre ++ [r]) rest]

theorem mem_take_get {α : Type} {r : α} {l : List α} {i : ℕ} (h : r ∈ l.take i) :
    ∃ k, ∃ hl : k < l.length, k < i ∧ l.get ⟨k, hl⟩ = r := by
  rcases List.mem_iff_get.mp h with ⟨⟨k, hk⟩, hget⟩
  have hk2 : k < l.length := lt_of_lt_of_le hk (by simpa using List.length_take_le i l)
  have hki : k < i := lt_of_lt_of_le hk (by simp)
  refine ⟨k, hk2, hki, ?_⟩
  have : (l.take i).get ⟨k, hk⟩ = l[k] := List.getElem_take l
  simpa [this] using hget

theorem unionFold_take_subset :
    ∀ (n : ℕ) (l : List (Finset String)),
      (l.take n).foldr (fun s acc => s ∪ acc) ∅ ⊆ l.foldr (fun s acc => s ∪ acc) ∅ := by
  intro n l
  induction l generalizing n with
  | nil => simp
  | cons a tl ih =>
    cases n with
    | zero => simp
    | succ m =>
      simp only [List.take_succ_cons, List.foldr_cons]
      exact Finset.union_subset_union (le_refl a) (ih m)

/-! ### Claim C1 — dataset loading and the persisted dataset -/

/-- Concrete listing page used in the C1 scenarios: one offshore CSV link. -/
def pageC1 : List Link := [⟨"Produção 2023", "http://x/producao_mar_2023.csv"⟩]

/-- A download directory already holding the local copy of every file of
`pageC1`: the most complete persisted state `load_data_for_fields`
supports. -/
def storeC1 : LocalStore := ⟨[localName "Mar" "2023" "producao_mar_2023.csv"]⟩

/-- C1, amended: `load_data_for_fields` always performs the listing-page
fetch; when every classified file already has a local copy it performs no
download, so the trace is exactly the one listing fetch.  The source has no
persisted consolidated dataset and no `force_refresh` parameter — the only
persistence is the per-file download cache. -/
theorem c1_cached_load_trace (targetEnv : String) (page : List Link) (store : LocalStore)
    (hall : ∀ e ∈ getAvailableFiles targetEnv page,
      store.files.contains (localName targetEnv e.year e.filename) = true) :
    loadDataEvents targetEnv page store = [NetEvent.listing] := by
  unfold loadDataEvents
  have h : (getAvailableFiles targetEnv page).filterMap (fun e =>
      if store.files.contains (localName targetEnv e.year e.filename) then none
      else some (NetEvent.download e.url)) = [] := by
    rw [List.filterMap_eq_nil_iff]
    intro e he
    rw [if_pos (hall e he)]
  rw [h]

/-- Witness for C1's amended theorem at the concrete cached state. -/
theorem c1_cached_load_trace_witness :
    loadDataEvents "Mar" pageC1 storeC1 = [NetEvent.listing] :=
  c1_cached_load_trace "Mar" pageC1 storeC1 (by decide)

/-- Counterexample to C1 as stated: even in the most completely persisted
state the code supports (every classified file already downloaded), the
invocation still performs a network call — the listing-page fetch — so the
trace is non-empty, while the claim requires no network calls at all. -/
theorem c1_counterexample :
    loadDataEvents "Mar" pageC1 storeC1 = [NetEvent.listing] ∧
      loadDataEvents "Mar" pageC1 storeC1 ≠ [] := by
  exact ⟨by decide, by decide⟩

/-! ### Claim C5 — the persisted field index across runs -/

/-- Four files' extracted `Campo` sets, newest first: only the first three
are processed by a quick scan. -/
def filesC5 : List (Finset String) := [{"a"}, {"b"}, {"c"}, {"d"}]

/-- C5, amended: one run persists exactly the union over the files it
processed (three newest on a quick scan, all on a full scan), discarding
the previously persisted set; hence a quick scan's persisted index is
contained in the full scan's over the same files, but need not contain
what was persisted before. -/
theorem c5_quick_subset_full (prev : Finset String) (files : List (Finset String)) :
    updateMetadataCache prev false files ⊆ updateMetadataCache prev true files := by
  simpa [updateMetadataCache, saveMetadata] using unionFold_take_subset 3 files

/-- Counterexample to C5 as stated: after a full scan over four files the
index holds `"d"` (from the oldest file); a subsequent quick scan rebuilds
from only the three newest files and persists a set without `"d"` — the
persisted set is not a superset of the one persisted before. -/
theorem c5_counterexample :
    "d" ∈ updateMetadataCache ∅ true filesC5 ∧
      "d" ∉ updateMetadataCache (updateMetadataCache ∅ true filesC5) false filesC5 := by
  exact ⟨by decide, by decide⟩

/-! ### Claim C6 — encodings and delimiters attempted by the loader -/

/-- C6, amended: the per-file read of `load_data_for_fields` accepts a file
only when it decodes under Windows-1252 or, failing that, UTF-8 — always
with the comma delimiter; Latin-1 is never attempted on this path and a
file decodable only under Latin-1 is skipped. -/
theorem c6_loader_encodings (f : SourceFile) (h : (loadFileRead f).isSome = true) :
    f.decodes Enc.w1252 = true ∨ f.decodes Enc.utf8 = true := by
  cases hw : f.decodes Enc.w1252 with
  | true => exact Or.inl rfl
  | false =>
    cases hu : f.decodes Enc.utf8 with
    | true => exact Or.inr rfl
    | false =>
      rw [loadFileRead, hw, hu] at h
      simp at h

/-- A file that decodes under Windows-1252 and parses to an empty table. -/
def fileC6w : SourceFile :=
  ⟨fun e => match e with | Enc.w1252 => true | _ => false, fun _ => some ⟨true, []⟩⟩

/-- Witness for C6's amended theorem at a Windows-1252 file. -/
theorem c6_loader_encodings_witness :
    fileC6w.decodes Enc.w1252 = true ∨ fileC6w.decodes Enc.utf8 = true :=
  c6_loader_encodings fileC6w (by decide)

/-- A file that decodes (and parses) only under Latin-1. -/
def fileC6latin : SourceFile :=
  ⟨fun e => match e with | Enc.latin1 => true | _ => false,
   fun _ => some ⟨true, [⟨"X"⟩]⟩⟩

/-- Counterexample to C6 as stated: a file decodable only under Latin-1
parses fine under the claimed last-resort combination, yet the loader
skips it (`none`) because it only ever tries Windows-1252 and UTF-8 with a
comma. -/
theorem c6_counterexample :
    fileC6latin.decodes Enc.latin1 = true ∧
      (fileC6latin.parsed Enc.latin1).isSome = true ∧
      loadFileRead fileC6latin = none :=
  ⟨rfl, rfl, rfl⟩

/-! ### Claim C7 — de-duplication of classified descriptors -/

/-- An offshore CSV anchor; listing it twice models the same link occurring
twice on the page. -/
def dupLink : Link := ⟨"Produção 2023", "http://x/producao_mar_2023.csv"⟩

/-- Counterexample to C7 as stated: a page on which the same anchor occurs
twice yields two descriptors with identical year and URL in one
environment's result — no de-duplication by URL happens. -/
theorem c7_counterexample :
    ¬ List.Pairwise (fun a b : FileEntry => ¬(a.year = b.year ∧ a.url = b.url))
      (getAvailableFiles "Mar" [dupLink, dupLink]) := by
  decide

/-- C7, amended: the classifier keeps one entry per matching anchor — its
output is a permutation of the per-anchor classification results (so
repeated anchors yield repeated URLs), sorted by year descending. -/
theorem c7_no_dedup (targetEnv : String) (page : List Link) :
    (getAvailableFiles targetEnv page).Perm (page.filterMap (classifyLink targetEnv)) ∧
      List.Sorted fileDescLe (getAvailableFiles targetEnv page) :=
  ⟨List.perm_insertionSort _ _, List.sorted_insertionSort _ _⟩

/-! ### Claim C10 — the field filter of the loader -/

/-- C10: with a non-empty selection, a row of a loaded table is dropped
only when the table has a (cleaned) `Campo` column and the row's value is
outside the selection; a table without a `Campo` column passes through
unchanged, so records of unselected fields can reach the returned
dataset. -/
theorem c10_filter_only_with_campo (selected : List String) (f : SourceFile)
    (tb out : LoadTable)
    (hsel : selected ≠ [])
    (hread : loadFileRead f = some tb)
    (hload : loadAndFilter selected f = some out) :
    (∀ r ∈ tb.rows, r ∉ out.rows → tb.hasCampo = true ∧ r.campo ∉ selected) ∧
      (tb.hasCampo = false → out = tb) := by
  have hout : out = filterByCampos selected tb := by
    rw [loadAndFilter, hread] at hload
    exact (Option.some.inj hload).symm
  subst hout
  have hne : selected.isEmpty = false := by
    cases hsl : selected with
    | nil => exact absurd hsl hsel
    | cons a l => rfl
  constructor
  · intro r hr hnr
    cases hc : tb.hasCampo with
    | false =>
      rw [filterByCampos, hne, hc] at hnr
      simp at hnr
      exact absurd hr hnr
    | true =>
      refine ⟨rfl, fun hmem => hnr ?_⟩
      rw [filterByCampos, hne, hc]
      simp only [Bool.not_false, Bool.and_self, if_pos]
      exact List.mem_filter.mpr ⟨hr, by simpa [List.contains, List.elem_iff] using hmem⟩
  · intro hc
    rw [filterByCampos, hne, hc]
    simp

/-- A table with rows but no `Campo` column, and the file producing it. -/
def tableC10 : LoadTable := ⟨false, [⟨"B"⟩]⟩

/-- The file whose read yields `tableC10`. -/
def fileC10 : SourceFile := ⟨fun _ => true, fun _ => some tableC10⟩

/-- Witness for C10 at a concrete file with no `Campo` column: the loaded
table passes the filter unchanged even though its row's field is not
selected. -/
theorem c10_filter_only_with_campo_witness :
    (∀ r ∈ tableC10.rows, r ∉ tableC10.rows →
        tableC10.hasCampo = true ∧ r.campo ∉ (["A"] : List String)) ∧
      (tableC10.hasCampo = false → tableC10 = tableC10) :=
  c10_filter_only_with_campo ["A"] fileC10 tableC10 tableC10 (by decide) rfl rfl

/-! ### Claim C3 — behaviour on absent columns -/

/-- C3, amended: only the gas and water columns degrade to all-zero
defaults and only the absence of `Ano`/`Mês` short-circuits; the
transformation succeeds exactly when the oil column is present and, in
case `Ano` and `Mês` are both present, the `Poço` column is too — a
missing `Produção de Óleo (m³)` column (or a missing `Poço` column on the
date branch) raises a `KeyError` to the caller. -/
theorem c3_missing_column_outcome (toDays : Int × Int → Int) (logFn : ℚ → ℚ)
    (t : InputTable) :
    (processDataframe toDays logFn t).isOk =
      (t.hasOleo && (!(t.hasAno && t.hasMes) || t.hasPoco)) := by
  unfold processDataframe
  cases hA : t.hasAno <;> cases hM : t.hasMes <;> cases hP : t.hasPoco <;>
    cases hO : t.hasOleo <;> simp [Except.isOk, Except.toBool]

/-- An input table whose oil column is absent. -/
def tableC3oil : InputTable :=
  ⟨true, true, true, false, true, true, true, [⟨"W", some 2020, some 1, 0, 0, 0, 0⟩]⟩

/-- An input table whose well column is absent while `Ano`/`Mês` are
present. -/
def tableC3poco : InputTable :=
  ⟨false, true, true, true, true, true, true, [⟨"W", some 2020, some 1, 0, 0, 0, 0⟩]⟩

/-- Counterexample to C3 as stated: a table missing the oil column, and one
missing the well column, both make the transformation fail instead of
degrading to an all-zero column. -/
theorem c3_counterexample :
    tableC3oil.hasOleo = false ∧
      (processDataframe (fun _ => 0) (fun _ => 0) tableC3oil).isOk = false ∧
      tableC3poco.hasPoco = false ∧
      (processDataframe (fun _ => 0) (fun _ => 0) tableC3poco).isOk = false := by
  exact ⟨rfl, by decide, rfl, by decide⟩

/-! ### Success-branch inversion and field extraction for the engine -/

theorem processDataframe_ok_cases (toDays : Int × Int → Int) (logFn : ℚ → ℚ)
    (t : InputTable) (out : List ProcRow)
    (hout : processDataframe toDays logFn t = Except.ok out) :
    ((t.hasAno && t.hasMes) = true ∧
        out = (cumOil [] (sortRows toDays t.rows)).map
          (mkProcRow t toDays logFn (sortRows toDays t.rows))) ∨
      ((t.hasAno && t.hasMes) = false ∧ out = t.rows.map (mkProcRowNoDate t logFn)) := by
  unfold processDataframe at hout
  cases hd : (t.hasAno && t.hasMes) <;> rw [hd] at hout
  · cases ho : t.hasOleo <;> rw [ho] at hout
    · simp at hout
    · simp at hout
      exact Or.inr ⟨rfl, hout.symm⟩
  · cases hp : t.hasPoco <;> rw [hp] at hout
    · simp at hout
    · cases ho : t.hasOleo <;> rw [ho] at hout
      · simp at hout
      · simp at hout
        exact Or.inl ⟨rfl, hout.symm⟩

theorem procRow_derived_fields (toDays : Int × Int → Int) (logFn : ℚ → ℚ)
    (t : InputTable) (out : List ProcRow)
    (hout : processDataframe toDays logFn t = Except.ok out) :
    ∀ p ∈ out, p.rgo = rgoOf p.gasAssoc p.gasNonAssoc p.oleo ∧
      p.rao = raoOf p.agua p.oleo ∧ p.lnq = lnqOf logFn p.oleo := by
  intro p hp
  rcases processDataframe_ok_cases toDays logFn t out hout with ⟨-, rfl⟩ | ⟨-, rfl⟩
  · rcases List.mem_map.mp hp with ⟨x, -, rfl⟩
    exact ⟨rfl, rfl, rfl⟩
  · rcases List.mem_map.mp hp with ⟨r, -, rfl⟩
    exact ⟨rfl, rfl, rfl⟩

/-! ### Claim C2 — the gas-oil and water-oil ratios -/

/-- C2, amended: every output record's ratios follow the source formulas —
`GasOilRatio = 1000 × (gas associated + gas non-associated) / oil` and
`WaterOilRatio = water / oil` when the oil production is positive, and both
exactly `0` when it is not (so never a division by a non-positive
denominator) — and both ratios are non-negative for every record whose
effective gas total and water inputs are non-negative; a record with a
negative input (the source never clamps signs) can carry a negative
ratio. -/
theorem c2_ratio_formulas (toDays : Int × Int → Int) (logFn : ℚ → ℚ)
    (t : InputTable) (out : List ProcRow)
    (hout : processDataframe toDays logFn t = Except.ok out) :
    ∀ p ∈ out,
      (0 < p.oleo →
        p.rgo = 1000 * (p.gasAssoc + p.gasNonAssoc) / p.oleo ∧ p.rao = p.agua / p.oleo) ∧
      (p.oleo ≤ 0 → p.rgo = 0 ∧ p.rao = 0) ∧
      (0 ≤ p.gasAssoc + p.gasNonAssoc → 0 ≤ p.agua → 0 ≤ p.rgo ∧ 0 ≤ p.rao) := by
  intro p hp
  obtain ⟨hr, ha, -⟩ := procRow_derived_fields toDays logFn t out hout p hp
  refine ⟨fun h => ?_, fun h => ?_, fun hg hw => ?_⟩
  · rw [hr, ha, rgoOf, raoOf, if_pos h, if_pos h]
    exact ⟨by ring, rfl⟩
  · rw [hr, ha, rgoOf, raoOf, if_neg (not_lt.mpr h), if_neg (not_lt.mpr h)]
    exact ⟨rfl, rfl⟩
  · rw [hr, ha, rgoOf, raoOf]
    by_cases h : 0 < p.oleo
    · rw [if_pos h, if_pos h]
      exact ⟨div_nonneg (mul_nonneg hg (by norm_num)) h.le, div_nonneg hw h.le⟩
    · rw [if_neg h, if_neg h]
      exact ⟨le_refl 0, le_refl 0⟩

/-- Concrete day-number and logarithm parameters for the engine witnesses. -/
def tdW : Int × Int → Int := fun p => p.1 * 372 + p.2 * 31

/-- Concrete log parameter (the claims hold for every choice). -/
def lfW : ℚ → ℚ := fun _ => 0

/-- A one-row table on the short-circuit branch with oil 2, gas 3 + 1,
water 4. -/
def tableC2w : InputTable :=
  ⟨true, false, false, true, true, true, true, [⟨"W", none, none, 2, 3, 1, 4⟩]⟩

/-- The record the engine produces for `tableC2w`. -/
def procC2w : ProcRow := ⟨"W", none, none, 2, 3, 1, 4, some 0, 0, 2000, 2, some 0⟩

/-- Witness for C2's amended theorem at a concrete record with positive
oil. -/
theorem c2_ratio_formulas_witness :
    (0 < procC2w.oleo →
        procC2w.rgo = 1000 * (procC2w.gasAssoc + procC2w.gasNonAssoc) / procC2w.oleo ∧
          procC2w.rao = procC2w.agua / procC2w.oleo) ∧
      (procC2w.oleo ≤ 0 → procC2w.rgo = 0 ∧ procC2w.rao = 0) ∧
      (0 ≤ procC2w.gasAssoc + procC2w.gasNonAssoc → 0 ≤ procC2w.agua →
        0 ≤ procC2w.rgo ∧ 0 ≤ procC2w.rao) :=
  c2_ratio_formulas tdW lfW tableC2w [procC2w]
    (by
      simp only [processDataframe, tableC2w, mkProcRowNoDate, gasAssocVal, gasNonAssocVal,
        aguaVal, rgoOf, raoOf, lnqOf, lfW, List.map, procC2w]
      norm_num)
    procC2w (by simp)

/-- A one-row table with positive oil and a negative associated-gas value
(the numeric coercion of the engine keeps signs). -/
def tableC2neg : InputTable :=
  ⟨true, false, false, true, true, true, true, [⟨"W", none, none, 1, -1, 0, 0⟩]⟩

/-- Counterexample to C2 as stated: with oil 1 and associated gas −1 the
engine outputs `GasOilRatio = −1000 < 0`, refuting "both ratios are ≥ 0 for
all records". -/
theorem c2_counterexample :
    (processDataframe tdW lfW tableC2neg).map (fun l => l.map (fun p => p.rgo)) =
        Except.ok [-1000] ∧
      ¬ (0 ≤ (-1000 : ℚ)) := by
  constructor
  · simp only [processDataframe, tableC2neg, mkProcRowNoDate, gasAssocVal, gasNonAssocVal,
      aguaVal, rgoOf, raoOf, lnqOf, lfW, List.map, Except.map]
    norm_num
  · norm_num

/-! ### Claim C4 — the log oil rate -/

/-- C4: every output record's `lnq` is an absent value (`NaN`, pandas'
missingness marker, modelled `none`) when the oil production is not
positive — in particular never `0` — and is the logarithm of the oil
production when it is positive. -/
theorem c4_log_rate (toDays : Int × Int → Int) (logFn : ℚ → ℚ)
    (t : InputTable) (out : List ProcRow)
    (hout : processDataframe toDays logFn t = Except.ok out) :
    ∀ p ∈ out, (p.oleo ≤ 0 → p.lnq = none) ∧
      (0 < p.oleo → p.lnq = some (logFn p.oleo)) := by
  intro p hp
  obtain ⟨-, -, hl⟩ := procRow_derived_fields toDays logFn t out hout p hp
  rw [hl, lnqOf]
  refine ⟨fun h => ?_, fun h => ?_⟩
  · rw [if_neg (not_lt.mpr h)]
  · rw [if_pos h]

/-- A two-row table with one non-positive and one positive oil value. -/
def tableC4w : InputTable :=
  ⟨true, false, false, true, true, true, true,
   [⟨"W", none, none, -1, 0, 0, 0⟩, ⟨"W", none, none, 2, 0, 0, 0⟩]⟩

/-- The record produced for the non-positive-oil row of `tableC4w` under
the identity in place of `np.log`. -/
def procC4a : ProcRow := ⟨"W", none, none, -1, 0, 0, 0, some 0, 0, 0, 0, none⟩

/-- The record produced for the positive-oil row of `tableC4w` under the
identity in place of `np.log`. -/
def procC4b : ProcRow := ⟨"W", none, none, 2, 0, 0, 0, some 0, 0, 0, 0, some 2⟩

/-- Witness for C4 at the two concrete records. -/
theorem c4_log_rate_witness : procC4a.lnq = none ∧ procC4b.lnq = some 2 := by
  have h := c4_log_rate tdW (fun x => x) tableC4w [procC4a, procC4b]
    (by
      simp only [processDataframe, tableC4w, mkProcRowNoDate, gasAssocVal, gasNonAssocVal,
        aguaVal, rgoOf, raoOf, lnqOf, List.map, procC4a, procC4b]
      norm_num)
  exact ⟨(h procC4a (by simp)).1 (by norm_num [procC4a]),
    (h procC4b (by simp)).2 (by norm_num [procC4b])⟩

/-! ### Claim C9 — degraded dates -/

/-- C9, amended: when the `Ano`/`Mês` columns are absent the engine
short-circuits to `tempo = 0` and `Np = 0` for every record; but on the
date branch a record whose date does not parse gets a missing `tempo`
(`NaN`, modelled `none`), not `0`. -/
theorem c9_degraded_dates (toDays : Int × Int → Int) (logFn : ℚ → ℚ)
    (t : InputTable) (out : List ProcRow)
    (hout : processDataframe toDays logFn t = Except.ok out) :
    ((t.hasAno && t.hasMes) = false → ∀ p ∈ out, p.tempo = some 0 ∧ p.np = 0) ∧
      ((t.hasAno && t.hasMes) = true → ∀ p ∈ out,
        dateOfParts p.ano p.mes = none → p.tempo = none) := by
  constructor
  · intro hb p hp
    rcases processDataframe_ok_cases toDays logFn t out hout with ⟨hd, rfl⟩ | ⟨-, rfl⟩
    · rw [hb] at hd
      exact absurd hd (by simp)
    · rcases List.mem_map.mp hp with ⟨r, -, rfl⟩
      exact ⟨rfl, rfl⟩
  · intro hb p hp hdate
    rcases processDataframe_ok_cases toDays logFn t out hout with ⟨-, rfl⟩ | ⟨hd, rfl⟩
    · rcases List.mem_map.mp hp with ⟨x, -, rfl⟩
      show tempoOf toDays (sortRows toDays t.rows) x.1 = none
      rw [tempoOf]
      have hdd : x.1.dateOf = none := hdate
      rw [hdd]
      rfl
    · rw [hb] at hd
      exact absurd hd (by simp)

/-- A one-row table on the short-circuit branch (no `Ano` column). -/
def tableC9a : InputTable :=
  ⟨true, false, true, true, true, true, true, [⟨"W", none, some 1, 3, 0, 0, 0⟩]⟩

/-- The record the engine produces for `tableC9a`. -/
def procC9a : ProcRow := ⟨"W", none, some 1, 3, 0, 0, 0, some 0, 0, 0, 0, some 0⟩

/-- A one-row table on the date branch whose row's year cell is
unparseable. -/
def tableC9b : InputTable :=
  ⟨true, true, true, true, true, true, true, [⟨"W", none, some 1, 2, 0, 0, 0⟩]⟩

/-- The record the engine produces for `tableC9b`: its `tempo` is missing. -/
def procC9b : ProcRow := ⟨"W", none, some 1, 2, 0, 0, 0, none, 2, 0, 0, some 0⟩

/-- Witness for C9's amended theorem on both branches. -/
theorem c9_degraded_dates_witness :
    (procC9a.tempo = some 0 ∧ procC9a.np = 0) ∧ procC9b.tempo = none := by
  have h1 := (c9_degraded_dates tdW lfW tableC9a [procC9a]
      (by
        simp only [processDataframe, tableC9a, mkProcRowNoDate, gasAssocVal, gasNonAssocVal,
          aguaVal, rgoOf, raoOf, lnqOf, lfW, List.map, procC9a]
        norm_num)).1
    (by decide) procC9a (by simp)
  have h2 := (c9_degraded_dates tdW lfW tableC9b [procC9b]
      (by
        simp only [processDataframe, tableC9b, mkProcRow, gasAssocVal, gasNonAssocVal,
          aguaVal, rgoOf, raoOf, lnqOf, lfW, List.map, procC9b, sortRows,
          List.insertionSort, cumOil, sumOilFor, tempoOf, validDays, dateOfParts,
          RawRow.dateOf, dkey, List.filter, List.filterMap, List.min?, Option.bind]
        norm_num)).2
    (by decide) procC9b (by simp) (by decide)
  exact ⟨h1, h2⟩

/-- Counterexample to C9 as stated: a well whose dates are unparseable
yields a missing `tempo` (`NaN`), not the claimed `ElapsedDays = 0`. -/
theorem c9_counterexample :
    (processDataframe tdW lfW tableC9b).map (fun l => l.map (fun p => p.tempo)) =
        Except.ok [none] ∧
      (none : Option Int) ≠ some 0 := by
  exact ⟨by decide, by decide⟩

/-! ### Claim C8 — cumulative oil per well -/

theorem cumOil_getElem (pre l : List RawRow) (i : ℕ) (h : i < l.length)
    (h2 : i < (cumOil pre l).length) :
    (cumOil pre l)[i] = (l[i], sumOilFor (l[i]).poco (pre ++ l.take (i + 1))) := by
  have h3 := cumOil_get? pre l i h
  rw [List.get?_eq_getElem?, List.getElem?_eq_getElem h2] at h3
  exact Option.some.inj h3

theorem cumOil_np_mono (l : List RawRow) (hnn : ∀ r ∈ l, 0 ≤ r.oleo)
    (i j : ℕ) (hi : i < l.length) (hj : j < l.length) (hij : i ≤ j)
    (hpoco : (l[i]).poco = (l[j]).poco) :
    sumOilFor (l[i]).poco (l.take (i + 1)) ≤ sumOilFor (l[j]).poco (l.take (j + 1)) := by
  rw [← hpoco]
  have hdec : l.take (j + 1) = l.take (i + 1) ++ (l.take (j + 1)).drop (i + 1) := by
    have h0 := List.take_append_drop (i + 1) (l.take (j + 1))
    rw [List.take_take, min_eq_left (by omega : i + 1 ≤ j + 1)] at h0
    exact h0.symm
  rw [hdec, sumOilFor_append]
  have hpos : 0 ≤ sumOilFor (l[i]).poco ((l.take (j + 1)).drop (i + 1)) :=
    sumOilFor_nonneg (fun r hr => hnn r (List.take_subset _ _ (List.drop_subset _ _ hr)))
  linarith

theorem cumOil_np_first (l : List RawRow) (i : ℕ) (hi : i < l.length)
    (hfirst : ∀ k : ℕ, ∀ hk : k < l.length, k < i → (l[k]).poco ≠ (l[i]).poco) :
    sumOilFor (l[i]).poco (l.take (i + 1)) = (l[i]).oleo := by
  have htake : l.take (i + 1) = l.take i ++ [l[i]] := by
    rw [List.take_succ, List.getElem?_eq_getElem hi]
    rfl
  rw [htake, sumOilFor_append]
  have h0 : sumOilFor (l[i]).poco (l.take i) = 0 := by
    apply sumOilFor_eq_zero
    intro r hr
    rcases mem_take_get hr with ⟨k, hkl, hki, hkr⟩
    rw [← hkr]
    exact hfirst k hkl hki
  rw [h0]
  simp [sumOilFor]

theorem procOut_sorted (toDays : Int × Int → Int) (logFn : ℚ → ℚ) (t : InputTable) :
    List.Sorted (procLe toDays)
      ((cumOil [] (sortRows toDays t.rows)).map
        (mkProcRow t toDays logFn (sortRows toDays t.rows))) := by
  have hs : List.Sorted (rowLe toDays) (sortRows toDays t.rows) :=
    List.sorted_insertionSort (rowLe toDays) t.rows
  have h1 : List.Pairwise (fun a b : RawRow × ℚ => rowLe toDays a.1 b.1)
      (cumOil [] (sortRows toDays t.rows)) := by
    have h0 := hs
    rw [← cumOil_map_fst [] (sortRows toDays t.rows)] at h0
    exact List.pairwise_map.mp h0
  exact List.pairwise_map.mpr (h1.imp (fun hab => hab))

/-- C8, amended: on the date branch (`Ano` and `Mês` present) and for
tables whose oil values are non-negative (the source never clamps signs),
the engine's output is sorted by well then date, `Np` is non-decreasing
along same-well records, and at a well's first output record — its
chronologically earliest — `Np` equals that record's oil production.  With
a negative oil value `Np` can decrease, and on the short-circuit branch
(`Ano`/`Mês` absent) `Np` is `0` regardless of the oil value. -/
theorem c8_cumulative_oil (toDays : Int × Int → Int) (logFn : ℚ → ℚ)
    (t : InputTable) (out : List ProcRow)
    (hdate : (t.hasAno && t.hasMes) = true)
    (hout : processDataframe toDays logFn t = Except.ok out)
    (hnn : ∀ r ∈ t.rows, 0 ≤ r.oleo) :
    List.Sorted (procLe toDays) out ∧
      (∀ i j : ℕ, ∀ hi : i < out.length, ∀ hj : j < out.length, i ≤ j →
        out[i].poco = out[j].poco → out[i].np ≤ out[j].np) ∧
      (∀ i : ℕ, ∀ hi : i < out.length,
        (∀ k : ℕ, ∀ hk : k < out.length, k < i → out[k].poco ≠ out[i].poco) →
        out[i].np = out[i].oleo) := by
  rcases processDataframe_ok_cases toDays logFn t out hout with ⟨-, rfl⟩ | ⟨hd, -⟩
  · have hnnL : ∀ r ∈ sortRows toDays t.rows, 0 ≤ r.oleo :=
      fun r hr => hnn r ((List.perm_insertionSort (rowLe toDays) t.rows).subset hr)
    have hlen : ((cumOil [] (sortRows toDays t.rows)).map
        (mkProcRow t toDays logFn (sortRows toDays t.rows))).length =
          (sortRows toDays t.rows).length := by
      rw [List.length_map, cumOil_length]
    refine ⟨procOut_sorted toDays logFn t, ?_, ?_⟩
    · intro i j hi hj hij hpoco
      have hiL : i < (sortRows toDays t.rows).length := hlen ▸ hi
      have hjL : j < (sortRows toDays t.rows).length := hlen ▸ hj
      have hiC : i < (cumOil [] (sortRows toDays t.rows)).length := by
        rw [cumOil_length]; exact hiL
      have hjC : j < (cumOil [] (sortRows toDays t.rows)).length := by
        rw [cumOil_length]; exact hjL
      rw [List.getElem_map, List.getElem_map,
        cumOil_getElem [] (sortRows toDays t.rows) i hiL hiC,
        cumOil_getElem [] (sortRows toDays t.rows) j hjL hjC] at hpoco ⊢
      simp only [mkProcRow, List.nil_append] at hpoco ⊢
      exact cumOil_np_mono (sortRows toDays t.rows) hnnL i j hiL hjL hij hpoco
    · intro i hi hfirst
      have hiL : i < (sortRows toDays t.rows).length := hlen ▸ hi
      have hiC : i < (cumOil [] (sortRows toDays t.rows)).length := by
        rw [cumOil_length]; exact hiL
      rw [List.getElem_map, cumOil_getElem [] (sortRows toDays t.rows) i hiL hiC]
      simp only [mkProcRow, List.nil_append]
      apply cumOil_np_first (sortRows toDays t.rows) i hiL
      intro k hk hki
      have hkOut : k < ((cumOil [] (sortRows toDays t.rows)).map
          (mkProcRow t toDays logFn (sortRows toDays t.rows))).length := hlen ▸ hk
      have hkC : k < (cumOil [] (sortRows toDays t.rows)).length := by
        rw [cumOil_length]; exact hk
      have h5 := hfirst k hkOut hki
      rw [List.getElem_map, List.getElem_map,
        cumOil_getElem [] (sortRows toDays t.rows) k hk hkC,
        cumOil_getElem [] (sortRows toDays t.rows) i hiL hiC] at h5
      simpa only [mkProcRow] using h5
  · rw [hdate] at hd
    exact absurd hd (by simp)

/-- A one-well table with two months and non-negative oil values (7 then 5
in file order, 5 then 7 chronologically). -/
def tableC8w : InputTable :=
  ⟨true, true, true, true, true, true, true,
   [⟨"W", some 2020, some 2, 7, 0, 0, 0⟩, ⟨"W", some 2020, some 1, 5, 0, 0, 0⟩]⟩

/-- The first (chronologically earliest) record the engine produces for
`tableC8w`. -/
def procC8a : ProcRow := ⟨"W", some 2020, some 1, 5, 0, 0, 0, some 0, 5, 0, 0, some 0⟩

/-- The second record the engine produces for `tableC8w`. -/
def procC8b : ProcRow := ⟨"W", some 2020, some 2, 7, 0, 0, 0, some 31, 12, 0, 0, some 0⟩

/-- The engine output for `tableC8w`. -/
def outC8w : List ProcRow := [procC8a, procC8b]

/-- Witness for C8's amended theorem at the concrete two-record well. -/
theorem c8_cumulative_oil_witness :
    procC8a.np ≤ procC8b.np ∧ procC8a.np = procC8a.oleo := by
  have h := c8_cumulative_oil tdW lfW tableC8w outC8w (by decide)
    (by
      simp only [processDataframe, tableC8w, mkProcRow, gasAssocVal, gasNonAssocVal,
        aguaVal, rgoOf, raoOf, lnqOf, lfW, tdW, List.map, outC8w, procC8a, procC8b,
        sortRows, List.insertionSort, List.orderedInsert, cumOil, sumOilFor, tempoOf,
        validDays, dateOfParts, RawRow.dateOf, dkey, optLe, rowLe,
        List.filter, List.filterMap, List.min?, Option.bind]
      norm_num [tdW])
    (by
      intro r hr
      simp only [tableC8w] at hr
      rcases List.mem_cons.mp hr with rfl | hr
      · norm_num
      · rcases List.mem_cons.mp hr with rfl | hr
        · norm_num
        · exact absurd hr (List.not_mem_nil r))
  exact ⟨h.2.1 0 1 (by decide) (by decide) (by omega) rfl,
    h.2.2 0 (by decide) (fun k hk hk0 => absurd hk0 (Nat.not_lt_zero k))⟩

/-- A one-well table on the date branch with a negative oil value in the
second month. -/
def tableC8neg : InputTable :=
  ⟨true, true, true, true, true, true, true,
   [⟨"W", some 2020, some 1, 5, 0, 0, 0⟩, ⟨"W", some 2020, some 2, -3, 0, 0, 0⟩]⟩

/-- A one-row table on the short-circuit branch with oil 7. -/
def tableC8sc : InputTable :=
  ⟨true, false, true, true, true, true, true, [⟨"W", none, none, 7, 0, 0, 0⟩]⟩

/-- Counterexample to C8 as stated: with a negative oil production the
well's `Np` sequence is `[5, 2]` — it decreases; and on the short-circuit
branch the first record's `Np` is `0`, not its oil production `7`. -/
theorem c8_counterexample :
    (processDataframe tdW lfW tableC8neg).map (fun l => l.map (fun p => p.np)) =
        Except.ok [5, 2] ∧
      ¬ ((5 : ℚ) ≤ 2) ∧
      (processDataframe tdW lfW tableC8sc).map (fun l => l.map (fun p => (p.np, p.oleo))) =
        Except.ok [(0, 7)] ∧
      (0 : ℚ) ≠ 7 := by
  refine ⟨?_, by norm_num, ?_, by norm_num⟩
  · simp only [processDataframe, tableC8neg, mkProcRow, gasAssocVal, gasNonAssocVal,
      aguaVal, rgoOf, raoOf, lnqOf, lfW, tdW, List.map, sortRows, List.insertionSort,
      List.orderedInsert, cumOil, sumOilFor, tempoOf, validDays, dateOfParts,
      RawRow.dateOf, dkey, optLe, rowLe, List.filter, List.filterMap, List.min?,
      Option.bind, Except.map]
    norm_num [tdW]
  · simp only [processDataframe, tableC8sc, mkProcRowNoDate, gasAssocVal, gasNonAssocVal,
      aguaVal, rgoOf, raoOf, lnqOf, lfW, List.map, Except.map]
    norm_num

end AnpData
